import Mathlib

/-!
Verification of the tabular-data layer of the `jmpytools` repository:
the `DataLib` format codecs (`DataLib/formats/_csv.py`, `_json.py`,
`_yaml.py`, `_xml.py`, `_latex.py`) and the ORM-backed `DataSet`/`Table`
abstraction (`DataSet/dataset.py`).

Cell values are modelled as strings (`csv` delivers strings; the claims
under study do not depend on richer value types).  External parsers
(`csv.reader`, `json.load`, `yaml.safe_load`) are modelled by taking the
already-parsed value — or, for `detect`, the parse *outcome* including
the exception class — as the input of the embedded function.
-/

/-- The Python `sep.join(parts)` operation: the parts concatenated with
`sep` between consecutive parts. -/
def joinSep (sep : String) : List String → String
  | [] => ""
  | [x] => x
  | x :: y :: ys => x ++ sep ++ joinSep sep (y :: ys)

/-- Lexicographic comparison of char lists by code point, as Python
compares strings. -/
def lexLeb : List Char → List Char → Bool
  | [], _ => true
  | _ :: _, [] => false
  | a :: as, b :: bs =>
      if a.toNat < b.toNat then true
      else if b.toNat < a.toNat then false
      else lexLeb as bs

/-- The Python string `<=` comparison: lexicographic by code point. -/
def strLeb (a b : String) : Bool := lexLeb a.data b.data

/-- Insert a string into an already-sorted list (helper of
`sortStrings`). -/
def insertSorted (x : String) : List String → List String
  | [] => [x]
  | y :: ys => if strLeb x y then x :: y :: ys else y :: insertSorted x ys

/-- The Python `sorted` builtin on a list of strings (insertion sort
under the code-point order). -/
def sortStrings : List String → List String
  | [] => []
  | x :: xs => insertSorted x (sortStrings xs)

/-- One row of a `DataLib` table: the cell values plus the tags of the
row (`tablib.Row` carries a `tags` list, used by the XML exporter). -/
structure TRow where
  cells : List String
  tags : List String
  deriving Repr, DecidableEq

/-- Modelled from the spec: the `DataLib` table core (`tablib.DataTable`,
not under `src/`; only the format codecs are).  Per the spec a Table is
"a named, ordered collection of Rows plus a declared column list": an
optional header row and the ordered data rows. -/
structure DataTable where
  headers : Option (List String)
  data : List TRow
  deriving Repr, DecidableEq

/-- Modelled from the spec: the table width — the number of declared
columns when a header row is present, otherwise the width of the first
data row (0 for an empty table). -/
def DataTable.width (t : DataTable) : Nat :=
  match t.headers with
  | some hs => hs.length
  | none => ((t.data.head?).map (fun r => r.cells.length)).getD 0

/-- Modelled from the spec: `wipe` erases all rows and the header row,
leaving an empty table (the importers call it before loading). -/
def DataTable.wipe (_t : DataTable) : DataTable := ⟨none, []⟩

/-- Modelled from the spec: `append` adds one data row (with no tags) at
the end of the ordered row collection. -/
def DataTable.append (t : DataTable) (row : List String) : DataTable :=
  { t with data := t.data ++ [⟨row, []⟩] }

/-- Modelled from the spec: the `dict` view pairs the declared headers
with the cells of each row (an ordered mapping from column name to
value). -/
def DataTable.dict (t : DataTable) : List (List (String × String)) :=
  match t.headers with
  | some hs => t.data.map (fun r => hs.zip r.cells)
  | none => []

/-- Modelled from the spec: assigning `dset.dict = rows` (a list of
row objects) replaces the table contents: headers become the keys of
the first row, data rows its values ("JSON: array of row objects").
An empty list leaves the (already wiped) table untouched. -/
def DataTable.setDict (t : DataTable) (rows : List (List (String × String))) :
    DataTable :=
  match rows with
  | [] => t
  | r0 :: _ =>
      { headers := some (r0.map (fun p => p.1)),
        data := rows.map (fun r => ⟨r.map (fun p => p.2), []⟩) }

/-- The row loop of `CSVFormat.import_set` (`_csv.py` lines 44-51):
row 0 becomes the header row when `headers` is set; a later non-empty
row shorter than the current table width is right-padded with empty
strings before being appended; empty rows are skipped. -/
def CSVFormat.importLoop (dset : DataTable) (headers : Bool) :
    Nat → List (List String) → DataTable
  | _, [] => dset
  | i, row :: rest =>
      if i = 0 ∧ headers then
        CSVFormat.importLoop { dset with headers := some row } headers (i + 1) rest
      else if row ≠ [] then
        let row' :=
          if 0 < i ∧ row.length < dset.width then
            row ++ List.replicate (dset.width - row.length) ""
          else row
        CSVFormat.importLoop (dset.append row') headers (i + 1) rest
      else
        CSVFormat.importLoop dset headers (i + 1) rest

/-- `CSVFormat.import_set` (`_csv.py` lines 36-51): wipe the target,
then run the row loop over the stream parsed by `csv.reader` (modelled
as the parsed list of rows). -/
def CSVFormat.import_set (dset : DataTable) (inStream : List (List String))
    (headers : Bool) : DataTable :=
  CSVFormat.importLoop (DataTable.wipe dset) headers 0 inStream

/-- The padding applied by `CSVFormat.import_set` to a data row, given
the table width `w`. -/
def CSVFormat.padRow (w : Nat) (row : List String) : List String :=
  if row.length < w then row ++ List.replicate (w - row.length) "" else row

/-- `JSONFormat.import_set` (`_json.py` lines 33-38): wipe the target,
then assign `dset.dict` from the JSON-parsed stream (modelled as the
parsed list of row objects, each an ordered key/value list). -/
def JSONFormat.import_set (dset : DataTable)
    (parsed : List (List (String × String))) : DataTable :=
  (DataTable.wipe dset).setDict parsed

/-- `YAMLFormat.import_set` (`_yaml.py` lines 23-28): wipe the target,
then assign `dset.dict` from the YAML-parsed stream. -/
def YAMLFormat.import_set (dset : DataTable)
    (parsed : List (List (String × String))) : DataTable :=
  (DataTable.wipe dset).setDict parsed

/-- Exception raised by `csv.Sniffer().sniff` while probing a sample
(`csv.Error`, or anything else: `CSVFormat.detect` catches bare
`Exception`, so one constructor suffices). -/
inductive CsvError where
  | error
  deriving Repr, DecidableEq

/-- Exceptions `json.load` can raise on a parse attempt:
`json.JSONDecodeError` is a subclass of `ValueError`; `TypeError` is
raised when the stream is not text-like.  (Interpreter resource limits
such as `RecursionError` on pathologically nested input are outside the
embedding.) -/
inductive JsonError where
  | typeError
  | valueError
  deriving Repr, DecidableEq

/-- Exception classes `yaml.safe_load` can raise: besides the scanner,
parser and reader errors, PyYAML raises `yaml.composer.ComposerError`
(e.g. on the stream `"*x"`, an undefined alias) and
`yaml.constructor.ConstructorError` (e.g. on an unknown tag such as
`"!foo 1"` under the safe loader). -/
inductive YamlError where
  | parserError
  | readerError
  | scannerError
  | composerError
  | constructorError
  deriving Repr, DecidableEq

/-- The shape of a value returned by `yaml.safe_load`, as far as
`YAMLFormat.detect` inspects it: `isinstance(_yaml, (list, tuple, dict))`. -/
inductive YamlDoc where
  | scalar
  | seq
  | mapping
  deriving Repr, DecidableEq

/-- Whether the parsed YAML document is a list/tuple/dict. -/
def YamlDoc.isCollection : YamlDoc → Bool
  | .scalar => false
  | .seq => true
  | .mapping => true

/-- `CSVFormat.detect` (`_csv.py` lines 53-60), as a function of the
sniffing outcome: `return True` on success, and the `except Exception`
clause turns every exception into `return False`. -/
def CSVFormat.detect (outcome : Except CsvError Unit) : Except CsvError Bool :=
  match outcome with
  | .ok _ => .ok true
  | .error _ => .ok false

/-- `JSONFormat.detect` (`_json.py` lines 51-58), as a function of the
`json.load` outcome: `return True` on success; the
`except (TypeError, ValueError)` clause turns both into `return False`. -/
def JSONFormat.detect (outcome : Except JsonError Unit) : Except JsonError Bool :=
  match outcome with
  | .ok _ => .ok true
  | .error .typeError => .ok false
  | .error .valueError => .ok false

/-- `YAMLFormat.detect` (`_yaml.py` lines 42-53), as a function of the
`yaml.safe_load` outcome: on success it returns whether the document is
a list/tuple/dict; the `except` clause names only
`yaml.parser.ParserError`, `yaml.reader.ReaderError` and
`yaml.scanner.ScannerError`, so a composer or constructor error
propagates out of `detect` (modelled as `Except.error`). -/
def YAMLFormat.detect (outcome : Except YamlError YamlDoc) :
    Except YamlError Bool :=
  match outcome with
  | .ok d => .ok d.isCollection
  | .error .parserError => .ok false
  | .error .readerError => .ok false
  | .error .scannerError => .ok false
  | .error e => .error e

/-- An XML element as built by `xml.etree.ElementTree`: tag name,
attributes, optional text, child elements. -/
inductive XElem where
  | el (name : String) (attrs : List (String × String)) (text : Option String)
      (children : List XElem)

/-- Tag name of an XML element. -/
def XElem.name : XElem → String
  | .el n _ _ _ => n

/-- Attributes of an XML element. -/
def XElem.attrs : XElem → List (String × String)
  | .el _ a _ _ => a

/-- Children of an XML element. -/
def XElem.children : XElem → List XElem
  | .el _ _ _ c => c

/-- Text of an XML element. -/
def XElem.text : XElem → Option String
  | .el _ _ t _ => t

/-- One `row` element of the XML export (`_xml.py` lines 20-28): a
`tags` attribute when the row has tags, and one child element per
`(header, value)` item of the dict view of the row, named after the header
and holding the value as text. -/
def XMLFormat.rowElem (hs : List String) (r : TRow) : XElem :=
  .el "row"
    (if r.tags = [] then [] else [("tags", joinSep "," r.tags)])
    none
    ((hs.zip r.cells).map (fun p => XElem.el p.1 [] (some p.2) []))

/-- `XMLFormat.export_set` (`_xml.py` lines 16-32): the root element is
created as an `ET.Element` named `DataTable` and receives one `row`
child per row of the dict view of the table.  (The final `ET.tostring`
serialization is
kept at the element-tree level; the claims under study are structural.)
The dict view requires a header row; the model pairs each row with the
declared headers as `DataTable.dict` does. -/
def XMLFormat.export_set (t : DataTable) : XElem :=
  .el "DataTable" [] none
    (t.data.map (fun r => XMLFormat.rowElem (t.headers.getD []) r))

/-- `LATEXFormat.TEX_RESERVED_SYMBOLS_MAP` (`_latex.py` lines 28-39):
the replacement for each TeX-reserved character. -/
def LATEXFormat.TEX_RESERVED_SYMBOLS_MAP : List (Char × String) :=
  [('\\', "\\textbackslash\x7b\x7d"),
   ('\x7b', "\\\x7b"),
   ('\x7d', "\\\x7d"),
   ('$', "\\$"),
   ('&', "\\&"),
   ('#', "\\#"),
   ('^', "\\textasciicircum\x7b\x7d"),
   ('_', "\\_"),
   ('~', "\\textasciitilde\x7b\x7d"),
   ('%', "\\%")]

/-- The substitution performed by `TEX_RESERVED_SYMBOLS_RE.sub` in
`_escape_tex_reserved_symbols`: the regex is an alternation of the ten
single reserved characters, so `re.sub` scans left to right and replaces
each occurrence by its mapped string (replacement text is not rescanned). -/
def LATEXFormat.texSub : List Char → List Char
  | [] => []
  | c :: cs =>
      match (LATEXFormat.TEX_RESERVED_SYMBOLS_MAP.lookup c) with
      | some rep => rep.data ++ LATEXFormat.texSub cs
      | none => c :: LATEXFormat.texSub cs

/-- `LATEXFormat._escape_tex_reserved_symbols` (`_latex.py` lines
124-132). -/
def LATEXFormat._escape_tex_reserved_symbols (s : String) : String :=
  ⟨LATEXFormat.texSub s.data⟩

/-- `LATEXFormat._serialize_row` (`_latex.py` lines 113-122): each
truthy cell is escaped (`str` is the identity on string cells; the empty
string is the only falsy string and maps to the empty string), the
cells are joined with the separator `" & "`, prefixed by six spaces
and suffixed by a space and two backslashes. -/
def LATEXFormat._serialize_row (row : List String) : String :=
  "      " ++
    joinSep " & "
      (row.map (fun item =>
        if item = "" then "" else LATEXFormat._escape_tex_reserved_symbols item))
    ++ " \\\\"

/-- A stored row of `DataSet/dataset.py`: an ordered mapping from column
name to value (values modelled as strings).  A column absent from the
list is NULL/absent for that row. -/
abbrev DbRow := List (String × String)

/-- The value of column `k` in a row, `none` when the row has no such
column (SQL NULL / absent attribute). -/
def getCell (r : DbRow) (k : String) : Option String :=
  (r.find? (fun p => p.1 = k)).map (fun p => p.2)

/-- A `dataset.py` table: the declared column list (the fields of the
ORM model, in order) and the stored rows. -/
structure DbTable where
  columns : List String
  rows : List DbRow
  deriving Repr, DecidableEq

/-- `Table._migrate_new_columns` (`dataset.py` lines 371-384): the keys
of `data` not among the declared model fields are each added as a new
nullable column (`field_class(null=True)`).  Python iterates a set
difference, whose order is unspecified; the model takes the keys in
`data` order, first occurrence only. -/
def Table._migrate_new_columns (t : DbTable) (data : DbRow) : DbTable :=
  let newKeys := ((data.map (fun p => p.1)).dedup).filter
    (fun k => ¬ k ∈ t.columns)
  { t with columns := t.columns ++ newKeys }

/-- `Table.insert` (`dataset.py` lines 409-411): migrate any new columns
of `data`, then insert the row. -/
def Table.insert (t : DbTable) (data : DbRow) : DbTable :=
  let t' := Table._migrate_new_columns t data
  { t' with rows := t'.rows ++ [data] }

/-- Whether a row satisfies every `column == value` filter of a query
(`Table._apply_where` combines the filters with logical AND). -/
def rowMatches (r : DbRow) (query : List (String × String)) : Bool :=
  query.all (fun p => getCell r p.1 = some p.2)

/-- `Table.find` (`dataset.py` lines 434-438): the rows satisfying the
conjunction of the filters, in stored order.  (`_apply_where` raises
`KeyError` on a filter column that is not a declared field; the claims
under study use valid filter columns.) -/
def Table.find (t : DbTable) (query : List (String × String)) : List DbRow :=
  t.rows.filter (fun r => rowMatches r query)

/-- `Table.find_one` (`dataset.py` lines 440-444): `.get()` returns the
first matching row and raises `DoesNotExist` when there is none; the
`except` clause turns that into `None`. -/
def Table.find_one (t : DbTable) (query : List (String × String)) :
    Option DbRow :=
  (Table.find t query).head?

/-- `Table.__getitem__` (`dataset.py` lines 386-390): look up the row
whose primary-key column `pk` holds `item`; the `except DoesNotExist:
pass` makes the method return `None` when there is no such row. -/
def Table.getItem (t : DbTable) (pk : String) (item : String) :
    Option DbRow :=
  t.rows.find? (fun r => getCell r pk = some item)

/-- Python exception classes raised by the `dataset.py` export path:
`_check_arguments` raises `ValueError`; `DataLib/exceptions.py` defines
`UnsupportedFormat(NotImplementedError)`, which `dataset.py` never
raises. -/
inductive PyError where
  | valueError (msg : String)
  | unsupportedFormat (msg : String)
  deriving Repr, DecidableEq

/-- Whether an exception is the `UnsupportedFormat` class of
`DataLib/exceptions.py` (named `UnsupportedFormatError` in the spec). -/
def PyError.isUnsupportedFormat : PyError → Bool
  | .unsupportedFormat _ => true
  | _ => false

/-- The registered export format names (`DataSet.get_export_formats`,
`dataset.py` lines 188-192). -/
def DataSet.exportFormatNames : List String := ["csv", "json", "tsv"]

/-- `DataSet._check_arguments` (`dataset.py` lines 267-277): exactly one
of filename/file_obj must be given, and the format must be registered;
each violation raises `ValueError` (the unsupported-format message lists
the valid formats, sorted and comma-joined). -/
def DataSet._check_arguments (filenameGiven fileObjGiven : Bool)
    (format : String) (formats : List String) : Except PyError Unit :=
  if filenameGiven ∧ fileObjGiven then
    .error (.valueError
      "file is over-specified. Please use either filename or file_obj, but not both.")
  else if ¬ filenameGiven ∧ ¬ fileObjGiven then
    .error (.valueError "A filename or file-like object must be specified.")
  else if ¬ format ∈ formats then
    .error (.valueError ("Unsupported format \"" ++ format ++ "\". Use one of "
      ++ joinSep ", " (sortStrings formats) ++ "."))
  else
    .ok ()

/-- Minimal quoting of one CSV field as `csv.writer` does by default
(`QUOTE_MINIMAL`): quote when the field contains the delimiter, a quote
or a line break, doubling embedded quotes. -/
def csvQuoteField (delim : Char) (s : String) : String :=
  if s.data.any (fun c => c = delim ∨ c = '"' ∨ c = '\n' ∨ c = '\r') then
    "\"" ++ ⟨s.data.flatMap (fun c => if c = '"' then ['"', '"'] else [c])⟩ ++ "\""
  else s

/-- One output line of `csv.writer.writerow`: delimiter-joined quoted
fields plus the default `\r\n` terminator. -/
def csvWriteRow (delim : Char) (fields : List String) : String :=
  joinSep (String.mk [delim]) (fields.map (csvQuoteField delim)) ++ "\r\n"

/-- `CSVExporter.export` (`dataset.py` lines 497-505) at delimiter
`delim` (a comma for CSV, a tab for `TSVExporter`): a header row with the
column names when `header` is set and the query has columns, then one
line per row with the values in column order (NULL rendered as the
empty field). -/
def CSVExporter.export (delim : Char) (t : DbTable) (header : Bool) : String :=
  String.join
    ((if header ∧ ¬ t.columns = [] then [csvWriteRow delim t.columns] else [])
      ++ t.rows.map (fun r =>
        csvWriteRow delim (t.columns.map (fun c => (getCell r c).getD ""))))

/-- JSON string literal with backslashes and quotes escaped (the subset
of `json.dump` string escaping the exported values exercise). -/
def jsonStr (s : String) : String :=
  "\"" ++ ⟨s.data.flatMap (fun c =>
    if c = '"' ∨ c = '\\' then ['\\', c] else [c])⟩ ++ "\""

/-- `JSONExporter.export` (`dataset.py` lines 489-494): `json.dump` of
the list of row dicts. -/
def JSONExporter.export (t : DbTable) : String :=
  "[" ++ joinSep ", "
    (t.rows.map (fun r =>
      "\x7b" ++ joinSep ", "
        (r.map (fun p => jsonStr p.1 ++ ": " ++ jsonStr p.2)) ++ "\x7d"))
    ++ "]"

/-- The exporter dispatched by `DataSet.freeze` for a registered format
name (`csv`/`json`/`tsv`). -/
def DataSet.exporterOutput (format : String) (t : DbTable) : String :=
  if format = "csv" then CSVExporter.export ',' t true
  else if format = "tsv" then CSVExporter.export '\t' t true
  else JSONExporter.export t

/-- `DataSet.freeze` (`dataset.py` lines 279-289): check the arguments
(raising `ValueError` for an unregistered format), then run the
exporter.  `freeze` only reads the query; the table state is threaded
unchanged to make that explicit. -/
def DataSet.freeze (query : DbTable) (format : String)
    (filenameGiven fileObjGiven : Bool) : Except PyError String × DbTable :=
  match DataSet._check_arguments filenameGiven fileObjGiven format
      DataSet.exportFormatNames with
  | .error e => (.error e, query)
  | .ok _ => (.ok (DataSet.exporterOutput format query), query)

/-- The row loop of `JSONImporter.load` (`dataset.py` lines 527-546):
in strict mode each row is reduced to its keys among the importer
column snapshot (`self.columns`, captured at construction from the
target model; `field.python_value` is the identity on string values and
`field.name` equals the column key); a non-empty object is inserted and
counted, an empty one skipped. -/
def JSONImporter.loadLoop (cols : List String) (strict : Bool) :
    DbTable × Nat → List DbRow → DbTable × Nat
  | acc, [] => acc
  | (t, count), row :: rest =>
      let obj := if strict then row.filter (fun p => p.1 ∈ cols) else row
      if obj = [] then JSONImporter.loadLoop cols strict (t, count) rest
      else JSONImporter.loadLoop cols strict (Table.insert t obj, count + 1) rest

/-- `JSONImporter.load` (`dataset.py` lines 527-546) on the parsed JSON
row list, returning the final table and the insert count. -/
def JSONImporter.load (t : DbTable) (strict : Bool) (data : List DbRow) :
    DbTable × Nat :=
  JSONImporter.loadLoop t.columns strict (t, 0) data

/-- The data-row loop of `CSVImporter.load` (`dataset.py` lines
572-581): each row is turned into an object taking `row[idx]` for every
`(idx, key)` header field and inserted.  Python raises `IndexError`
when a row is shorter than a used index; the model returns `none` there
(the claims under study do not concern the partial state left by the
propagating exception). -/
def CSVImporter.loadRows (headerFields : List (Nat × String)) :
    DbTable × Nat → List (List String) → Option (DbTable × Nat)
  | acc, [] => some acc
  | (t, count), row :: rest =>
      match headerFields.mapM (fun p => (row.get? p.1).map (fun v => (p.2, v))) with
      | none => none
      | some obj => CSVImporter.loadRows headerFields (Table.insert t obj, count + 1) rest

/-- `CSVImporter.load` (`dataset.py` lines 549-583) with `header=True`
on the parsed CSV rows: the first row gives the header keys; in strict
mode only keys among the importer column snapshot are kept (with their
index), otherwise all keys are enumerated; with no header fields the
load returns immediately, else the data rows are inserted.  (The
`header=False` branch of the source reads `self.model`, an attribute
`Importer.__init__` never sets, and would raise `AttributeError`; it is
outside this model.) -/
def CSVImporter.load (t : DbTable) (strict : Bool)
    (input : List (List String)) : Option (DbTable × Nat) :=
  match input with
  | [] => some (t, 0)
  | headerKeys :: rest =>
      let headerFields :=
        if strict then headerKeys.enum.filter (fun p => p.2 ∈ t.columns)
        else headerKeys.enum
      if headerFields = [] then some (t, 0)
      else CSVImporter.loadRows headerFields (t, 0) rest

/-- The objects a strict `JSONImporter.load` inserts: each input row
restricted to the declared columns, empty results dropped. -/
def keptStrictObjs (cols : List String) (data : List DbRow) : List DbRow :=
  (data.map (fun row => row.filter (fun p => p.1 ∈ cols))).filter
    (fun o => ¬ o = [])

theorem CSVFormat.importLoop_after_headers (hdr : List String)
    (rows : List (List String)) :
    ∀ (d : List TRow) (i : Nat),
      CSVFormat.importLoop ⟨some hdr, d⟩ true (i + 1) rows =
        ⟨some hdr,
          d ++ (rows.filter (fun r => ¬ r = [])).map
            (fun r => ⟨CSVFormat.padRow hdr.length r, []⟩)⟩ := by
  induction rows with
  | nil => intro d i; simp [CSVFormat.importLoop]
  | cons row rest ih =>
      intro d i
      by_cases hrow : row = []
      · subst hrow
        simp [CSVFormat.importLoop, ih]
      · simp only [CSVFormat.importLoop]
        rw [if_neg (by simp)]
        rw [if_pos hrow]
        simp only [DataTable.append, DataTable.width]
        rw [ih]
        simp [CSVFormat.padRow, List.filter_cons, hrow]

/-- C1: for every CSV input with a header row of width `w` and data
rows, the import sets the headers from row 0 and appends every
non-empty data row padded with empty strings to width `w` when shorter;
`padRow` pads exactly with empty strings up to the width; and the
concrete instance: headers `[a,b,c]` with data row `[1,2]` yields the
pairs (a,1) and (b,2) with c paired to the empty string. -/
theorem c1_csv_import_pads_short_rows :
    (∀ (dset : DataTable) (hdr : List String) (rows : List (List String)),
      CSVFormat.import_set dset (hdr :: rows) true =
        ⟨some hdr, (rows.filter (fun r => ¬ r = [])).map
          (fun r => ⟨CSVFormat.padRow hdr.length r, []⟩)⟩)
    ∧ (∀ (w : Nat) (r : List String),
        CSVFormat.padRow w r = r ++ List.replicate (w - r.length) "" ∧
        (CSVFormat.padRow w r).length = max r.length w)
    ∧ (CSVFormat.import_set ⟨none, []⟩ [["a", "b", "c"], ["1", "2"]] true).dict
        = [[("a", "1"), ("b", "2"), ("c", "")]] := by
  refine ⟨?_, ?_, ?_⟩
  · intro dset hdr rows
    have h := CSVFormat.importLoop_after_headers hdr rows [] 0
    simpa [CSVFormat.import_set, DataTable.wipe, CSVFormat.importLoop] using h
  · intro w r
    constructor
    · by_cases h : r.length < w
      · simp [CSVFormat.padRow, h]
      · simp [CSVFormat.padRow, h, Nat.sub_eq_zero_of_le (Nat.le_of_not_lt h)]
    · by_cases h : r.length < w
      · simp [CSVFormat.padRow, h]
        omega
      · simp [CSVFormat.padRow, h]
        omega
  · rfl

/-- C4 (amended): CSV and JSON `detect` return a boolean for every
parse outcome and never raise; YAML `detect` returns a boolean on a
successful parse and on the parser/reader/scanner errors named in its
`except` clause — but (see the counterexample) not on every parse
exception. -/
theorem c4_detect_amended :
    (∀ o, ∃ b, CSVFormat.detect o = .ok b)
    ∧ (∀ o, ∃ b, JSONFormat.detect o = .ok b)
    ∧ (∀ d, YAMLFormat.detect (.ok d) = .ok d.isCollection)
    ∧ YAMLFormat.detect (.error .parserError) = .ok false
    ∧ YAMLFormat.detect (.error .readerError) = .ok false
    ∧ YAMLFormat.detect (.error .scannerError) = .ok false := by
  refine ⟨?_, ?_, fun d => rfl, rfl, rfl, rfl⟩
  · intro o
    match o with
    | .ok _ => exact ⟨true, rfl⟩
    | .error _ => exact ⟨false, rfl⟩
  · intro o
    match o with
    | .ok _ => exact ⟨true, rfl⟩
    | .error .typeError => exact ⟨false, rfl⟩
    | .error .valueError => exact ⟨false, rfl⟩

/-- C4 counterexample: on the parse outcome of the stream `"*x"` —
`yaml.safe_load` raises `yaml.composer.ComposerError` (undefined alias)
— `YAMLFormat.detect` propagates the exception instead of returning a
boolean, because its `except` clause names only the parser, reader and
scanner errors. -/
theorem c4_detect_counterexample :
    YAMLFormat.detect (.error .composerError) = .error .composerError := rfl

/-- C9: the CSV, JSON and YAML `import_set` wipe the target before
loading, so the resulting table is independent of the prior table state
(import replaces rather than appends), and the resulting rows are
exactly those parsed from the stream (for CSV: the non-empty data rows,
padded to the header width). -/
theorem c9_import_set_wipes_first :
    (∀ (d1 d2 : DataTable) (istream : List (List String)) (hflag : Bool),
      CSVFormat.import_set d1 istream hflag = CSVFormat.import_set d2 istream hflag)
    ∧ (∀ (d1 d2 : DataTable) (parsed : List (List (String × String))),
      JSONFormat.import_set d1 parsed = JSONFormat.import_set d2 parsed)
    ∧ (∀ (d1 d2 : DataTable) (parsed : List (List (String × String))),
      YAMLFormat.import_set d1 parsed = YAMLFormat.import_set d2 parsed)
    ∧ (∀ (d : DataTable) (parsed : List (List (String × String))),
      (JSONFormat.import_set d parsed).data.map (fun r => r.cells) =
        parsed.map (fun r => r.map (fun p => p.2)))
    ∧ (∀ (d : DataTable) (hdr : List String) (rows : List (List String)),
      (CSVFormat.import_set d (hdr :: rows) true).data.map (fun r => r.cells) =
        (rows.filter (fun r => ¬ r = [])).map (CSVFormat.padRow hdr.length)) := by
  refine ⟨?_, ?_, ?_, ?_, ?_⟩
  · intro d1 d2 istream hflag
    simp [CSVFormat.import_set, DataTable.wipe]
  · intro d1 d2 parsed
    simp [JSONFormat.import_set, DataTable.wipe]
  · intro d1 d2 parsed
    simp [YAMLFormat.import_set, DataTable.wipe]
  · intro d parsed
    cases parsed with
    | nil => rfl
    | cons r0 rest => simp [JSONFormat.import_set, DataTable.wipe, DataTable.setDict]
  · intro d hdr rows
    have h := CSVFormat.importLoop_after_headers hdr rows [] 0
    simp [CSVFormat.import_set, DataTable.wipe, CSVFormat.importLoop]
    rw [h]
    simp [Function.comp]

/-- C6 (amended): for every table with a header row and full-width
rows, the root element of the XML export is named `DataTable` (the
source creates an `ET.Element` named `DataTable`, not `Table`), with
one `row` child
per row, one child element per column named after the column, and an
optional `tags` attribute on each `row` element. -/
theorem c6_xml_export_amended :
    ∀ (t : DataTable) (hs : List String),
      t.headers = some hs →
      (∀ r ∈ t.data, r.cells.length = hs.length) →
      (XMLFormat.export_set t).name = "DataTable"
      ∧ (XMLFormat.export_set t).children.length = t.data.length
      ∧ ∀ c ∈ (XMLFormat.export_set t).children,
          c.name = "row"
          ∧ c.children.map XElem.name = hs
          ∧ (c.attrs = [] ∨ ∃ v, c.attrs = [("tags", v)]) := by
  intro t hs hh hlen
  refine ⟨rfl, by simp [XMLFormat.export_set, XElem.children], ?_⟩
  intro c hc
  simp only [XMLFormat.export_set, XElem.children, List.mem_map] at hc
  obtain ⟨r, hr, hcr⟩ := hc
  subst hcr
  rw [hh]
  refine ⟨rfl, ?_, ?_⟩
  · have hle : hs.length ≤ r.cells.length := le_of_eq (hlen r hr).symm
    have hfst := List.map_fst_zip hs r.cells hle
    simp only [XMLFormat.rowElem, XElem.children, XElem.name, List.map_map,
      Option.getD_some]
    simpa [Function.comp] using hfst
  · by_cases ht : r.tags = []
    · left
      simp [XMLFormat.rowElem, XElem.attrs, ht]
    · right
      exact ⟨joinSep "," r.tags, by simp [XMLFormat.rowElem, XElem.attrs, ht]⟩

/-- C6 counterexample: on the one-column, one-row table with header
`a` and cell `1`, the root element of the XML export is not named
`Table` (it is named `DataTable`). -/
theorem c6_xml_root_counterexample :
    ¬ (XMLFormat.export_set ⟨some ["a"], [⟨["1"], []⟩]⟩).name = "Table" := by
  simp [XMLFormat.export_set, XElem.name]

/-- C6 witness: the amended theorem applied to the one-column,
one-row table. -/
theorem c6_xml_export_witness :
    (XMLFormat.export_set ⟨some ["a"], [⟨["1"], []⟩]⟩).name = "DataTable"
    ∧ (XMLFormat.export_set ⟨some ["a"], [⟨["1"], []⟩]⟩).children.length = 1
    ∧ (XMLFormat.rowElem ["a"] ⟨["1"], []⟩).name = "row" := by
  have h := c6_xml_export_amended ⟨some ["a"], [⟨["1"], []⟩]⟩ ["a"] rfl
    (by intro r hr; simp at hr; subst hr; rfl)
  exact ⟨h.1, h.2.1, (h.2.2 _ (by simp [XMLFormat.export_set, XElem.children])).1⟩

theorem joinSep_cons_of_ne (sep a : String) (l : List String) (h : ¬ l = []) :
    joinSep sep (a :: l) = a ++ sep ++ joinSep sep l := by
  cases l with
  | nil => exact absurd rfl h
  | cons y ys => rfl

theorem joinSep_split (sep x : String) :
    ∀ l1 l2 : List String, ∃ pre post,
      joinSep sep (l1 ++ x :: l2) = pre ++ x ++ post := by
  intro l1
  induction l1 with
  | nil =>
      intro l2
      cases l2 with
      | nil => exact ⟨"", "", by simp [joinSep]⟩
      | cons y ys =>
          refine ⟨"", sep ++ joinSep sep (y :: ys), ?_⟩
          simp [joinSep, String.append_assoc]
  | cons a l1 ih =>
      intro l2
      obtain ⟨pre, post, hp⟩ := ih l2
      refine ⟨a ++ sep ++ pre, post, ?_⟩
      rw [List.cons_append, joinSep_cons_of_ne sep a _ (by simp), hp]
      simp [String.append_assoc]

theorem LATEXFormat.texSub_flatMap :
    ∀ l : List Char, LATEXFormat.texSub l =
      l.flatMap (fun c =>
        match LATEXFormat.TEX_RESERVED_SYMBOLS_MAP.lookup c with
        | some rep => rep.data
        | none => [c]) := by
  intro l
  induction l with
  | nil => rfl
  | cons c cs ih =>
      simp only [LATEXFormat.texSub, List.flatMap_cons]
      cases h : LATEXFormat.TEX_RESERVED_SYMBOLS_MAP.lookup c with
      | none => simp [h, ih]
      | some rep => simp [h, ih]

/-- C7: the escape map covers exactly the ten TeX-reserved characters
`\ { } $ & # ^ _ ~ %`; the escape function rewrites each reserved
character of the input to its escaped form and leaves every other
character unchanged; every non-empty cell of a serialized row appears
escaped in the serialized output; and a sample: `a_b%c` becomes
`a\_b\%c`. -/
theorem c7_latex_escapes_reserved :
    (LATEXFormat.TEX_RESERVED_SYMBOLS_MAP.map (fun p => p.1) =
      ['\\', '\x7b', '\x7d', '$', '&', '#', '^', '_', '~', '%'])
    ∧ (∀ s : String, (LATEXFormat._escape_tex_reserved_symbols s).data =
        s.data.flatMap (fun c =>
          match LATEXFormat.TEX_RESERVED_SYMBOLS_MAP.lookup c with
          | some rep => rep.data
          | none => [c]))
    ∧ (∀ (row : List String) (item : String), item ∈ row → ¬ item = "" →
        ∃ pre post, LATEXFormat._serialize_row row =
          pre ++ LATEXFormat._escape_tex_reserved_symbols item ++ post)
    ∧ LATEXFormat._escape_tex_reserved_symbols "a_b%c" = "a\\_b\\%c" := by
  refine ⟨rfl, ?_, ?_, rfl⟩
  · intro s
    exact LATEXFormat.texSub_flatMap s.data
  · intro row item hmem hne
    obtain ⟨l1, l2, rfl⟩ := List.append_of_mem hmem
    obtain ⟨pre, post, hsplit⟩ := joinSep_split " & "
      (LATEXFormat._escape_tex_reserved_symbols item)
      (l1.map (fun it =>
        if it = "" then "" else LATEXFormat._escape_tex_reserved_symbols it))
      (l2.map (fun it =>
        if it = "" then "" else LATEXFormat._escape_tex_reserved_symbols it))
    refine ⟨"      " ++ pre, post ++ " \\\\", ?_⟩
    simp only [LATEXFormat._serialize_row, List.map_append, List.map_cons,
      if_neg hne]
    rw [hsplit]
    simp [String.append_assoc]

/-- C7 witness: the serialized row of the single cell `a_b` contains
the escaped form of that cell. -/
theorem c7_latex_escapes_witness :
    ∃ pre post, LATEXFormat._serialize_row ["a_b"] =
      pre ++ LATEXFormat._escape_tex_reserved_symbols "a_b" ++ post :=
  c7_latex_escapes_reserved.2.2.1 ["a_b"] "a_b" (by simp) (by simp)

theorem Table.insert_of_subset (t : DbTable) (data : DbRow)
    (h : ∀ p ∈ data, p.1 ∈ t.columns) :
    Table.insert t data = ⟨t.columns, t.rows ++ [data]⟩ := by
  have hnil : ((data.map (fun p => p.1)).dedup).filter
      (fun k => ¬ k ∈ t.columns) = [] := by
    rw [List.filter_eq_nil_iff]
    intro k hk
    simp only [List.mem_dedup, List.mem_map] at hk
    obtain ⟨p, hp, rfl⟩ := hk
    simp [h p hp]
  simp only [Table.insert, Table._migrate_new_columns, hnil, List.append_nil]

theorem Table.mem_insert_columns_left (t : DbTable) (data : DbRow) (k : String)
    (h : k ∈ t.columns) : k ∈ (Table.insert t data).columns := by
  simp [Table.insert, Table._migrate_new_columns, h]

theorem Table.mem_insert_columns_data (t : DbTable) (data : DbRow)
    (p : String × String) (hp : p ∈ data) :
    p.1 ∈ (Table.insert t data).columns := by
  by_cases hk : p.1 ∈ t.columns
  · exact Table.mem_insert_columns_left t data p.1 hk
  · simp only [Table.insert, Table._migrate_new_columns, List.mem_append]
    right
    simp only [List.mem_filter, List.mem_dedup, List.mem_map]
    exact ⟨⟨p, hp, rfl⟩, by simpa using hk⟩

theorem keptStrictObjs_cons (cols : List String) (row : DbRow)
    (rest : List DbRow) :
    keptStrictObjs cols (row :: rest) =
      if row.filter (fun p => p.1 ∈ cols) = [] then keptStrictObjs cols rest
      else row.filter (fun p => p.1 ∈ cols) :: keptStrictObjs cols rest := by
  by_cases hobj : row.filter (fun p => p.1 ∈ cols) = []
  · simp [keptStrictObjs, List.filter_cons, hobj]
  · simp [keptStrictObjs, List.filter_cons, hobj]

theorem JSONImporter.loadLoop_strict (cols : List String) :
    ∀ (data : List DbRow) (t : DbTable) (count : Nat),
      (∀ k, k ∈ cols → k ∈ t.columns) →
      (JSONImporter.loadLoop cols true (t, count) data).1 =
        ⟨t.columns, t.rows ++ keptStrictObjs cols data⟩ := by
  intro data
  induction data with
  | nil => intro t count h; simp [JSONImporter.loadLoop, keptStrictObjs]
  | cons row rest ih =>
      intro t count h
      rw [keptStrictObjs_cons]
      by_cases hobj : row.filter (fun p => p.1 ∈ cols) = []
      · rw [if_pos hobj]
        simp only [JSONImporter.loadLoop, if_true, hobj, ite_true]
        exact ih t count h
      · rw [if_neg hobj]
        have hsub : ∀ p ∈ row.filter (fun p => p.1 ∈ cols), p.1 ∈ t.columns := by
          intro p hp
          simp only [List.mem_filter, decide_eq_true_eq] at hp
          exact h p.1 hp.2
        simp only [JSONImporter.loadLoop, if_true, if_neg hobj]
        rw [Table.insert_of_subset t _ hsub,
          ih ⟨t.columns, t.rows ++ [row.filter (fun p => p.1 ∈ cols)]⟩
            (count + 1) (by intro k hk; exact h k hk)]
        simp [List.append_assoc]

theorem JSONImporter.loadLoop_columns_mono (cols : List String) (strict : Bool) :
    ∀ (data : List DbRow) (t : DbTable) (count : Nat) (k : String),
      k ∈ t.columns →
      k ∈ (JSONImporter.loadLoop cols strict (t, count) data).1.columns := by
  intro data
  induction data with
  | nil => intro t count k hk; simpa [JSONImporter.loadLoop] using hk
  | cons row rest ih =>
      intro t count k hk
      simp only [JSONImporter.loadLoop]
      by_cases hobj : (if strict then row.filter (fun p => p.1 ∈ cols) else row) = []
      · rw [if_pos hobj]
        exact ih t count k hk
      · rw [if_neg hobj]
        exact ih _ (count + 1) k (Table.mem_insert_columns_left t _ k hk)

theorem JSONImporter.loadLoop_nonstrict_keys (cols : List String) :
    ∀ (data : List DbRow) (t : DbTable) (count : Nat) (row : DbRow)
      (p : String × String), row ∈ data → p ∈ row →
      p.1 ∈ (JSONImporter.loadLoop cols false (t, count) data).1.columns := by
  intro data
  induction data with
  | nil => intro t count row p hrow; exact absurd hrow (by simp)
  | cons r rest ih =>
      intro t count row p hrow hp
      simp only [List.mem_cons] at hrow
      simp only [JSONImporter.loadLoop, if_neg (Bool.false_ne_true), ite_false]
      rcases hrow with hrow | hrow
      · subst hrow
        have hne : ¬ row = [] := by
          intro hnil; rw [hnil] at hp; exact absurd hp (by simp)
        rw [if_neg hne]
        exact JSONImporter.loadLoop_columns_mono cols false rest _ (count + 1)
          p.1 (Table.mem_insert_columns_data t row p hp)
      · by_cases hne : r = []
        · rw [if_pos hne]
          exact ih t count row p hrow hp
        · rw [if_neg hne]
          exact ih _ (count + 1) row p hrow hp

theorem mapM_option_mem_of {α β : Type} (f : α → Option β) :
    ∀ (l : List α) (out : List β), l.mapM f = some out →
      ∀ b ∈ out, ∃ a ∈ l, f a = some b := by
  intro l
  induction l with
  | nil =>
      intro out hout b hb
      simp only [List.mapM_nil, pure, Option.some.injEq] at hout
      subst hout
      exact absurd hb (by simp)
  | cons a l ih =>
      intro out hout b hb
      rw [List.mapM_cons] at hout
      cases hfa : f a with
      | none => rw [hfa] at hout; simp at hout
      | some b0 =>
          rw [hfa] at hout
          cases hml : l.mapM f with
          | none => rw [hml] at hout; simp at hout
          | some bs =>
              rw [hml] at hout
              simp only [Option.bind_eq_bind, Option.some_bind, pure,
                Option.some.injEq] at hout
              subst hout
              rcases List.mem_cons.mp hb with hb | hb
              · exact ⟨a, by simp, by rw [hfa, hb]⟩
              · obtain ⟨a', ha', hfa'⟩ := ih bs hml b hb
                exact ⟨a', by simp [ha'], hfa'⟩

theorem mapM_option_mem_to {α β : Type} (f : α → Option β) :
    ∀ (l : List α) (out : List β), l.mapM f = some out →
      ∀ a ∈ l, ∃ b ∈ out, f a = some b := by
  intro l
  induction l with
  | nil =>
      intro out hout a ha
      exact absurd ha (by simp)
  | cons x l ih =>
      intro out hout a ha
      rw [List.mapM_cons] at hout
      cases hfx : f x with
      | none => rw [hfx] at hout; simp at hout
      | some b0 =>
          rw [hfx] at hout
          cases hml : l.mapM f with
          | none => rw [hml] at hout; simp at hout
          | some bs =>
              rw [hml] at hout
              simp only [Option.bind_eq_bind, Option.some_bind, pure,
                Option.some.injEq] at hout
              subst hout
              rcases List.mem_cons.mp ha with ha | ha
              · subst ha
                exact ⟨b0, by simp, hfx⟩
              · obtain ⟨b, hb, hfb⟩ := ih bs hml a ha
                exact ⟨b, by simp [hb], hfb⟩

theorem CSVImporter.loadRows_strict_columns (hf : List (Nat × String)) :
    ∀ (rows : List (List String)) (t : DbTable) (count : Nat)
      (res : DbTable × Nat),
      (∀ p ∈ hf, p.2 ∈ t.columns) →
      CSVImporter.loadRows hf (t, count) rows = some res →
      res.1.columns = t.columns := by
  intro rows
  induction rows with
  | nil =>
      intro t count res hcols hres
      simp only [CSVImporter.loadRows, Option.some.injEq] at hres
      rw [← hres]
  | cons row rest ih =>
      intro t count res hcols hres
      simp only [CSVImporter.loadRows] at hres
      split at hres
      · exact absurd hres (by simp)
      · rename_i obj hobj
        have hsub : ∀ q ∈ obj, q.1 ∈ t.columns := by
          intro q hq
          obtain ⟨p, hp, hfp⟩ := mapM_option_mem_of _ hf obj hobj q hq
          cases hg : row.get? p.1 with
          | none => rw [hg] at hfp; simp at hfp
          | some v =>
              rw [hg] at hfp
              simp at hfp
              rw [← hfp]
              exact hcols p hp
        rw [Table.insert_of_subset t obj hsub] at hres
        have hrec := ih ⟨t.columns, t.rows ++ [obj]⟩ (count + 1) res
          (by intro p hp; exact hcols p hp) hres
        simpa using hrec

theorem CSVImporter.loadRows_columns_mono (hf : List (Nat × String)) :
    ∀ (rows : List (List String)) (t : DbTable) (count : Nat)
      (res : DbTable × Nat),
      CSVImporter.loadRows hf (t, count) rows = some res →
      ∀ k ∈ t.columns, k ∈ res.1.columns := by
  intro rows
  induction rows with
  | nil =>
      intro t count res hres k hk
      simp only [CSVImporter.loadRows, Option.some.injEq] at hres
      rw [← hres]
      exact hk
  | cons row rest ih =>
      intro t count res hres k hk
      simp only [CSVImporter.loadRows] at hres
      split at hres
      · exact absurd hres (by simp)
      · rename_i obj hobj
        exact ih (Table.insert t obj) (count + 1) res hres k
          (Table.mem_insert_columns_left t obj k hk)

theorem mem_enumFrom_of_mem {α : Type} (a : α) :
    ∀ (l : List α) (n : Nat), a ∈ l → ∃ i, (i, a) ∈ l.enumFrom n := by
  intro l
  induction l with
  | nil => intro n h; exact absurd h (by simp)
  | cons x xs ih =>
      intro n h
      rcases List.mem_cons.mp h with h | h
      · subst h
        exact ⟨n, by simp [List.enumFrom_cons]⟩
      · obtain ⟨i, hi⟩ := ih (n + 1) h
        refine ⟨i, ?_⟩
        rw [List.enumFrom_cons]
        exact List.mem_cons_of_mem _ hi

/-- C3: inserting a row with a previously-unseen column adds that
column to the declared column list exactly once (count 1 afterwards);
old rows satisfying the key invariant show the unseen column as
null/absent; every key of the inserted row is declared afterwards; and
the subset invariant (row keys ⊆ declared columns) is preserved by
`Table.insert`. -/
theorem c3_insert_extends_schema_once :
    ∀ (t : DbTable) (data : DbRow),
      (∀ k, k ∈ data.map (fun p => p.1) → ¬ k ∈ t.columns →
        ((Table.insert t data).columns.count k = 1
          ∧ ∀ r ∈ t.rows, (∀ q ∈ r, q.1 ∈ t.columns) → getCell r k = none))
      ∧ (∀ p ∈ data, p.1 ∈ (Table.insert t data).columns)
      ∧ ((∀ r ∈ t.rows, ∀ q ∈ r, q.1 ∈ t.columns) →
          ∀ r ∈ (Table.insert t data).rows, ∀ q ∈ r,
            q.1 ∈ (Table.insert t data).columns) := by
  intro t data
  refine ⟨?_, fun p hp => Table.mem_insert_columns_data t data p hp, ?_⟩
  · intro k hk hnot
    constructor
    · have hnodup : (((data.map (fun p => p.1)).dedup).filter
          (fun k => ¬ k ∈ t.columns)).Nodup :=
        (List.nodup_dedup _).filter _
      have hmem : k ∈ ((data.map (fun p => p.1)).dedup).filter
          (fun k => ¬ k ∈ t.columns) := by
        rw [List.mem_filter]
        exact ⟨List.mem_dedup.mpr hk, by simpa using hnot⟩
      simp only [Table.insert, Table._migrate_new_columns, List.count_append]
      rw [List.count_eq_zero.mpr hnot, List.count_eq_one_of_mem hnodup hmem]
    · intro r hr hinv
      unfold getCell
      rw [List.find?_eq_none.mpr ?_]
      · rfl
      · intro q hq
        have := hinv q hq
        simp only [decide_eq_true_eq]
        intro hqk
        rw [hqk] at this
        exact hnot this
  · intro hinv r hr q hq
    have hrows : (Table.insert t data).rows = t.rows ++ [data] := by
      simp [Table.insert, Table._migrate_new_columns]
    rw [hrows] at hr
    rcases List.mem_append.mp hr with hr | hr
    · exact Table.mem_insert_columns_left t data q.1 (hinv r hr q hq)
    · rw [List.mem_singleton.mp hr] at hq
      exact Table.mem_insert_columns_data t data q hq

/-- C3 witness: inserting `{a:2, b:3}` into a table declaring only
column `a` adds column `b` exactly once, and the preexisting row shows
`b` as absent. -/
theorem c3_insert_extends_schema_once_witness :
    (Table.insert ⟨["a"], [[("a", "1")]]⟩ [("a", "2"), ("b", "3")]).columns.count "b" = 1
    ∧ getCell [("a", "1")] "b" = none := by
  have h := (c3_insert_extends_schema_once ⟨["a"], [[("a", "1")]]⟩
    [("a", "2"), ("b", "3")]).1 "b" (by decide) (by decide)
  exact ⟨h.1, h.2 [("a", "1")] (by decide) (by decide)⟩

/-- C10: `Table.find_one` returns `None` when no stored row matches the
filter conjunction, and `Table.__getitem__` returns `None` when no
stored row carries the given primary-key value. -/
theorem c10_absent_lookup_returns_none :
    (∀ (t : DbTable) (query : List (String × String)),
      (∀ r ∈ t.rows, rowMatches r query = false) →
      Table.find_one t query = none)
    ∧ (∀ (t : DbTable) (pk item : String),
      (∀ r ∈ t.rows, ¬ getCell r pk = some item) →
      Table.getItem t pk item = none) := by
  constructor
  · intro t query h
    unfold Table.find_one Table.find
    rw [List.filter_eq_nil_iff.mpr ?_]
    · rfl
    · intro r hr
      simp [h r hr]
  · intro t pk item h
    unfold Table.getItem
    rw [List.find?_eq_none.mpr ?_]
    intro r hr
    simpa using h r hr

/-- C10 witness: a one-row table returns `None` both for a filter no
row matches and for a missing primary-key value. -/
theorem c10_absent_lookup_returns_none_witness :
    Table.find_one ⟨["a"], [[("a", "1")]]⟩ [("a", "2")] = none
    ∧ Table.getItem ⟨["id"], [[("id", "1")]]⟩ "id" "2" = none :=
  ⟨c10_absent_lookup_returns_none.1 ⟨["a"], [[("a", "1")]]⟩ [("a", "2")]
      (by decide),
    c10_absent_lookup_returns_none.2 ⟨["id"], [[("id", "1")]]⟩ "id" "2"
      (by decide)⟩

/-- C8: CSV import is a deterministic function of the input stream and
the initial table state: `CSVImporter.load` gives equal results on two
fresh (empty, identically-declared) tables, and `CSVFormat.import_set`
gives equal results on any two initial tables (it wipes first). -/
theorem c8_csv_import_deterministic :
    (∀ (t1 t2 : DbTable) (strict : Bool) (input : List (List String)),
      t1.columns = t2.columns → t1.rows = [] → t2.rows = [] →
      CSVImporter.load t1 strict input = CSVImporter.load t2 strict input)
    ∧ (∀ (d1 d2 : DataTable) (istream : List (List String)) (hflag : Bool),
      CSVFormat.import_set d1 istream hflag = CSVFormat.import_set d2 istream hflag) := by
  constructor
  · intro t1 t2 strict input hcols h1 h2
    obtain ⟨c1, r1⟩ := t1
    obtain ⟨c2, r2⟩ := t2
    simp only at hcols h1 h2
    subst hcols
    subst h1
    subst h2
    rfl
  · intro d1 d2 istream hflag
    simp [CSVFormat.import_set, DataTable.wipe]

/-- C8 witness: the determinism theorem applied to two fresh tables
declaring column `a` and a two-line CSV stream. -/
theorem c8_csv_import_deterministic_witness :
    CSVImporter.load ⟨["a"], []⟩ false [["a"], ["1"]] =
      CSVImporter.load ⟨["a"], []⟩ false [["a"], ["1"]] :=
  c8_csv_import_deterministic.1 ⟨["a"], []⟩ ⟨["a"], []⟩ false
    [["a"], ["1"]] rfl rfl rfl

/-- C2: importing rows into a target table — strict JSON import keeps
only the input columns already declared on the target (the final table
has unchanged columns and each inserted object is the input row
restricted to them); non-strict JSON import declares every input
column; strict CSV import leaves the declared columns unchanged; and a
successful non-strict CSV import with at least one data row declares
every header key. -/
theorem c2_strict_import_drops_unknown_columns :
    (∀ (t : DbTable) (data : List DbRow),
      (JSONImporter.load t true data).1 =
        ⟨t.columns, t.rows ++ keptStrictObjs t.columns data⟩)
    ∧ (∀ (t : DbTable) (data : List DbRow) (row : DbRow) (p : String × String),
        row ∈ data → p ∈ row →
        p.1 ∈ (JSONImporter.load t false data).1.columns)
    ∧ (∀ (t : DbTable) (keys : List String) (rows : List (List String))
        (res : DbTable × Nat),
        CSVImporter.load t true (keys :: rows) = some res →
        res.1.columns = t.columns)
    ∧ (∀ (t : DbTable) (keys : List String) (row : List String)
        (rest : List (List String)) (res : DbTable × Nat),
        CSVImporter.load t false (keys :: row :: rest) = some res →
        ∀ k ∈ keys, k ∈ res.1.columns) := by
  refine ⟨?_, ?_, ?_, ?_⟩
  · intro t data
    exact JSONImporter.loadLoop_strict t.columns data t 0 (fun k hk => hk)
  · intro t data row p hrow hp
    exact JSONImporter.loadLoop_nonstrict_keys t.columns data t 0 row p hrow hp
  · intro t keys rows res hres
    simp only [CSVImporter.load, if_true] at hres
    split at hres
    · simp only [Option.some.injEq] at hres
      rw [← hres]
    · refine CSVImporter.loadRows_strict_columns _ rows t 0 res ?_ hres
      intro p hp
      simp only [List.mem_filter, decide_eq_true_eq] at hp
      exact hp.2
  · intro t keys row rest res hres k hk
    by_cases henum : keys.enum = []
    · have hkeys : keys = [] := by
        cases keys with
        | nil => rfl
        | cons a as => exact absurd henum (by simp [List.enum_cons])
      rw [hkeys] at hk
      exact absurd hk (by simp)
    · have hres' : CSVImporter.loadRows keys.enum (t, 0) (row :: rest) =
          some res := by
        rw [← hres]
        simp [CSVImporter.load, henum]
      simp only [CSVImporter.loadRows] at hres'
      split at hres'
      · exact absurd hres' (by simp)
      · rename_i obj hobj
        obtain ⟨i, hi⟩ := mem_enumFrom_of_mem k keys 0 hk
        obtain ⟨b, hb, hfb⟩ := mapM_option_mem_to _ keys.enum obj hobj (i, k) hi
        cases hg : row.get? i with
        | none => rw [hg] at hfb; simp at hfb
        | some v =>
            rw [hg] at hfb
            simp at hfb
            subst hfb
            exact CSVImporter.loadRows_columns_mono keys.enum rest
              (Table.insert t obj) 1 res hres' k
              (Table.mem_insert_columns_data t obj (k, v) hb)

/-- C2 witness: a non-strict JSON import of a row with the undeclared
column `c` into a table declaring only `a` creates column `c`. -/
theorem c2_strict_import_witness :
    ("c", "2").1 ∈ (JSONImporter.load ⟨["a"], []⟩ false [[("c", "2")]]).1.columns :=
  c2_strict_import_drops_unknown_columns.2.1 ⟨["a"], []⟩ [[("c", "2")]]
    [("c", "2")] ("c", "2") (by simp) (by simp)

/-- C5 (amended): exporting with an unregistered format name fails
with `ValueError` (`_check_arguments` raises a `ValueError` whose
message starts `Unsupported format`; the exception class
`UnsupportedFormat` exists in `DataLib/exceptions.py` but `dataset.py`
never raises it) and leaves the table rows and declared columns
unmodified. -/
theorem c5_unsupported_format_amended :
    ∀ (t : DbTable) (fmt : String), ¬ fmt ∈ DataSet.exportFormatNames →
      DataSet.freeze t fmt true false =
        (Except.error (PyError.valueError ("Unsupported format \"" ++ fmt
          ++ "\". Use one of csv, json, tsv.")), t) := by
  intro t fmt hfmt
  simp only [DataSet.freeze, DataSet._check_arguments]
  rw [if_neg (by simp), if_neg (by simp), if_pos hfmt]
  have hmsg : "Unsupported format \"" ++ fmt ++ "\". Use one of "
      ++ joinSep ", " (sortStrings DataSet.exportFormatNames) ++ "." =
      "Unsupported format \"" ++ fmt ++ "\". Use one of csv, json, tsv." := by
    simp only [String.append_assoc]
    rfl
  rw [hmsg]

/-- C5 counterexample: `freeze` on format `docx` fails with
`ValueError`, which is not the `UnsupportedFormat` exception class
(named `UnsupportedFormatError` in the spec); the table comes back
unmodified. -/
theorem c5_unsupported_format_counterexample :
    DataSet.freeze ⟨["a"], [[("a", "1")]]⟩ "docx" true false =
      (Except.error (PyError.valueError
          "Unsupported format \"docx\". Use one of csv, json, tsv."),
        ⟨["a"], [[("a", "1")]]⟩)
    ∧ PyError.isUnsupportedFormat (PyError.valueError
        "Unsupported format \"docx\". Use one of csv, json, tsv.") = false := by
  exact ⟨rfl, rfl⟩

/-- C5 witness: the amended theorem applied to a one-column table and
the unregistered format `docx`. -/
theorem c5_unsupported_format_witness :
    DataSet.freeze ⟨["a"], [[("a", "1")]]⟩ "docx" true false =
      (Except.error (PyError.valueError ("Unsupported format \"" ++ "docx"
        ++ "\". Use one of csv, json, tsv.")), ⟨["a"], [[("a", "1")]]⟩) :=
  c5_unsupported_format_amended ⟨["a"], [[("a", "1")]]⟩ "docx" (by decide)
